import Mathlib

/-!
Verification of the access-control-core repository (credential issuance,
verification and revocation) against its natural-language specification.

The development shallow-embeds the TypeScript sources:

* `CryptoUtils.verify` / `CryptoUtils.isValidBase64` (crypto-utils.ts, the
  strict codec with canonical base64 validation);
* `User.storeVc` / `User.getCredentialForLock` (user store);
* `SmartContract` (the registry variant with per-lock revoked-signature
  sets: `registerLock`, `revokeSignature`, `fetchRevokedSignatures`,
  `isOwner`, `transferOwnership`, `fetchPublicKey`);
* `Device` (the revocation-aware verifier with a local revoked-signature
  cache: `fetchRevokedSignatures`, `verifyVc`);
* `DeviceV1` / `SmartContractV1` (the verifier variant of device.ts that
  checks the credential lockId, backed by the lock-record registry of
  smart-contract.ts);
* `LockOwner.revokeAccessWithVc` (the authority).

JavaScript `Map` objects are modelled as association lists (`alGet`,
`alSet`), `Set` objects as duplicate-free insertion-ordered lists
(`setAdd`), thrown errors as explicit error values returned next to the
(possibly already mutated) state, and the external RSA primitive
(`crypto.verify`) as an opaque function parameter `CryptoBackend`, so that
properties independent of the cryptography are quantified over every
possible backend.
-/

/-- Membership in the base64 alphabet `A-Z a-z 0-9 + /`
(the character class of the source regex). -/
def isB64Char (c : Char) : Bool :=
  ('A' ≤ c && c ≤ 'Z') || ('a' ≤ c && c ≤ 'z') || ('0' ≤ c && c ≤ '9') ||
    c == '+' || c == '/'

/-- Numeric value (0..63) of a base64 alphabet character. -/
def b64CharVal (c : Char) : Nat :=
  if 'A' ≤ c && c ≤ 'Z' then c.toNat - 65
  else if 'a' ≤ c && c ≤ 'z' then c.toNat - 71
  else if '0' ≤ c && c ≤ '9' then c.toNat + 4
  else if c == '+' then 62
  else 63

/-- Character for a 6-bit value (0..63), the base64 alphabet in order. -/
def sextetChar (n : Nat) : Char :=
  if n < 26 then Char.ofNat (65 + n)
  else if n < 52 then Char.ofNat (97 + (n - 26))
  else if n < 62 then Char.ofNat (48 + (n - 52))
  else if n == 62 then '+'
  else '/'

/-- Byte list from a list of 6-bit values: groups of four sextets give
three bytes, a trailing group of three gives two bytes, of two gives one
byte, and a single leftover sextet gives no byte.  This is how the Node
`Buffer.from(s, "base64")` decoder assembles bytes from the base64
characters of its input. -/
def decodeSextets : List Nat → List Nat
  | a :: b :: c :: d :: rest =>
      (a * 4 + b / 16) :: ((b % 16) * 16 + c / 4) :: ((c % 4) * 64 + d) ::
        decodeSextets rest
  | [a, b, c] => [a * 4 + b / 16, (b % 16) * 16 + c / 4]
  | [a, b] => [a * 4 + b / 16]
  | _ => []

/-- Model of `Buffer.from(s, "base64")`: the forgiving Node decoder keeps
the base64 alphabet characters of the input (padding and any other
character contributes no bits) and assembles bytes from their 6-bit
values. -/
def b64Decode (s : String) : List Nat :=
  decodeSextets ((s.data.filter isB64Char).map b64CharVal)

/-- Character list of the canonical base64 encoding of a byte list:
groups of three bytes give four characters, a trailing group of two gives
three characters and one `=`, a single trailing byte gives two characters
and `==`. -/
def encodeBytes : List Nat → List Char
  | x :: y :: z :: rest =>
      sextetChar (x / 4) :: sextetChar ((x % 4) * 16 + y / 16) ::
        sextetChar ((y % 16) * 4 + z / 64) :: sextetChar (z % 64) ::
          encodeBytes rest
  | [x, y] =>
      [sextetChar (x / 4), sextetChar ((x % 4) * 16 + y / 16),
        sextetChar ((y % 16) * 4), '=']
  | [x] => [sextetChar (x / 4), sextetChar ((x % 4) * 16), '=', '=']
  | [] => []

/-- Model of `buffer.toString("base64")`: the canonical padded base64
encoding of a byte list. -/
def b64Encode (bytes : List Nat) : String :=
  ⟨encodeBytes bytes⟩

/-- Operational model of the source regex `^[A-Za-z0-9+/]*={0,2}$`: scan
base64 alphabet characters; at the first non-alphabet character the rest
of the input must be `=` or `==` (so in particular that character must be
`=`). -/
def base64RegexScan : List Char → Bool
  | [] => true
  | c :: rest =>
      if isB64Char c then base64RegexScan rest
      else c == '=' && (rest == [] || rest == ['='])

/-- `CryptoUtils.isValidBase64` (crypto-utils.ts): the string must match
`^[A-Za-z0-9+/]*={0,2}$` and re-encoding its decoded bytes must reproduce
it exactly.  (The `try`/`catch` of the source is vacuous: the decoder
never throws.) -/
def CryptoUtils.isValidBase64 (str : String) : Bool :=
  base64RegexScan str.data && (b64Encode (b64Decode str) == str)

/-- The external RSA-PSS primitive `crypto.verify`, kept opaque: it
receives the decoded digest bytes, the decoded signature bytes and the
public key. -/
def CryptoBackend : Type :=
  List Nat → List Nat → String → Bool

/-- `CryptoUtils.verify` (crypto-utils.ts): reject the signature, then the
digest, when not strictly valid base64; only then call the cryptographic
primitive on the decoded bytes. -/
def CryptoUtils.verify (rsaVerify : CryptoBackend)
    (dataHash signature publicKey : String) : Bool :=
  if !(CryptoUtils.isValidBase64 signature) then false
  else if !(CryptoUtils.isValidBase64 dataHash) then false
  else rsaVerify (b64Decode dataHash) (b64Decode signature) publicKey

/-- The spec's notion of a string failing canonical base64 form, stated in
the claim's own words: it contains a character outside the base64
alphabet (padding included), or re-encoding its decoded bytes does not
reproduce the string exactly.  Defined from the spec for comparison with
the source's `CryptoUtils.isValidBase64`. -/
def specNonCanonical (s : String) : Prop :=
  (∃ c ∈ s.data, ¬(isB64Char c = true ∨ c = '=')) ∨ b64Encode (b64Decode s) ≠ s

instance (s : String) : Decidable (specNonCanonical s) := by
  unfold specNonCanonical; infer_instance

/-- A string accepted by the regex has only alphabet or padding
characters. -/
theorem base64RegexScan_all (cs : List Char) (h : base64RegexScan cs = true) :
    ∀ c ∈ cs, isB64Char c = true ∨ c = '=' := by
  induction cs with
  | nil => intro c hc; cases hc
  | cons a rest ih =>
      intro c hc
      by_cases ha : isB64Char a = true
      · rw [base64RegexScan, if_pos ha] at h
        rcases List.mem_cons.mp hc with hc | hc
        · exact hc ▸ Or.inl ha
        · exact ih h c hc
      · rw [base64RegexScan, if_neg ha] at h
        simp only [Bool.and_eq_true, Bool.or_eq_true] at h
        obtain ⟨ha', hrest⟩ := h
        rcases List.mem_cons.mp hc with hc | hc
        · exact Or.inr (by rw [hc]; simpa using ha')
        · rcases hrest with h0 | h1
          · rw [show rest = [] by simpa using h0] at hc; cases hc
          · rw [show rest = ['='] by simpa using h1] at hc
            simp at hc
            exact Or.inr hc

/-- A string that is non-canonical in the spec's sense is rejected by the
source's `isValidBase64`. -/
theorem isValidBase64_eq_false_of_specNonCanonical (s : String)
    (h : specNonCanonical s) : CryptoUtils.isValidBase64 s = false := by
  rcases h with ⟨c, hc, hbad⟩ | hrt
  · rcases hscan : base64RegexScan s.data with _ | _
    · simp [CryptoUtils.isValidBase64, hscan]
    · exact absurd (base64RegexScan_all s.data hscan c hc) hbad
  · simp [CryptoUtils.isValidBase64]
    intro _
    exact hrt

/-- C1: for every pair of strings `(digest, signature)` and every public
key, `CryptoUtils.verify` returns false whenever `digest` or `signature`
is not in canonical base64 form (a character outside the base64 alphabet,
or a failing re-encode round-trip), and this rejection happens before any
cryptographic verification is attempted: the result is false for every
possible cryptographic backend, which is never consulted.  Totality (no
exception) is inherent: the embedding of `verify` is a total function. -/
theorem c1_codec_rejects_noncanonical (rsaVerify : CryptoBackend)
    (digest signature publicKey : String)
    (h : specNonCanonical digest ∨ specNonCanonical signature) :
    CryptoUtils.verify rsaVerify digest signature publicKey = false := by
  unfold CryptoUtils.verify
  rcases h with h | h
  · rcases hs : CryptoUtils.isValidBase64 signature with _ | _
    · simp [hs]
    · simp [hs, isValidBase64_eq_false_of_specNonCanonical digest h]
  · simp [isValidBase64_eq_false_of_specNonCanonical signature h]

/-- Witness for C1 at a concrete input: the signature `a!` contains `!`,
a character outside the base64 alphabet, and verification rejects it even
for a backend that accepts everything. -/
theorem c1_codec_rejects_noncanonical_witness :
    (specNonCanonical "QQ==" ∨ specNonCanonical "a!") ∧
      CryptoUtils.verify (fun _ _ _ => true) "QQ==" "a!" "pk" = false :=
  ⟨Or.inr (by decide),
    c1_codec_rejects_noncanonical (fun _ _ _ => true) "QQ==" "a!" "pk"
      (Or.inr (by decide))⟩

/-- A verifiable credential (types.ts `VerifiableCredential`). -/
structure VC where
  lockId : Nat
  userMetaDataHash : String
  lockNickname : String
  signature : String
deriving DecidableEq, Repr

/-- A user / holder (user.ts `User`): the list of stored credentials. -/
structure User where
  vcs : List VC
deriving DecidableEq, Repr

/-- `User.storeVc` (user.ts): `findIndex` of an existing credential with
the same lockId (modelled by `List.findIdx`, which returns the length
when there is none, mirroring the `!== -1` test); replace it in place if
found, push the new credential otherwise. -/
def User.storeVc (u : User) (vc : VC) : User :=
  let i := u.vcs.findIdx (fun e => e.lockId == vc.lockId)
  if i < u.vcs.length then { u with vcs := u.vcs.set i vc }
  else { u with vcs := u.vcs ++ [vc] }

/-- `User.getCredentialForLock` (user.ts): first stored credential with
the given lockId, if any. -/
def User.getCredentialForLock (u : User) (lockId : Nat) : Option VC :=
  u.vcs.find? (fun vc => vc.lockId == lockId)

/-- Recursive characterisation of the list transform performed by
`storeVc`: replace the first credential with the same lockId, else
append. -/
def storeVcList (l : List VC) (vc : VC) : List VC :=
  match l with
  | [] => [vc]
  | x :: xs =>
      if x.lockId == vc.lockId then vc :: xs else x :: storeVcList xs vc

/-- `storeVc` acts on the stored list as `storeVcList`. -/
theorem storeVc_eq_storeVcList (l : List VC) (vc : VC) :
    (User.storeVc ⟨l⟩ vc).vcs = storeVcList l vc := by
  induction l with
  | nil => rfl
  | cons x xs ih =>
      by_cases hx : x.lockId == vc.lockId
      · simp [User.storeVc, storeVcList, List.findIdx_cons, hx]
      · have hx' : (x.lockId == vc.lockId) = false := by
          simpa using hx
        simp only [User.storeVc, storeVcList, List.findIdx_cons, hx',
          cond_false, if_neg hx]
        simp only [User.storeVc] at ih
        by_cases hlt : xs.findIdx (fun e => e.lockId == vc.lockId) < xs.length
        · have hlt' : xs.findIdx (fun e => e.lockId == vc.lockId) + 1 <
              (x :: xs).length := by
            simpa [List.length_cons] using Nat.succ_lt_succ hlt
          rw [if_pos hlt']
          rw [if_pos hlt] at ih
          simpa [List.set] using congrArg (x :: ·) ih
        · have hge : ¬(xs.findIdx (fun e => e.lockId == vc.lockId) + 1 <
              (x :: xs).length) := by
            simpa [List.length_cons] using
              fun hcon => hlt (Nat.lt_of_succ_lt_succ hcon)
          rw [if_neg hge]
          rw [if_neg hlt] at ih
          simpa [List.cons_append] using congrArg (x :: ·) ih

/-- Storing twice for the same lockId leaves exactly one credential for
that lockId, the second one, first in lookup order. -/
theorem storeVcList_twice (l : List VC) (c1 c2 : VC)
    (hid : c1.lockId = c2.lockId)
    (hinv : (l.filter (fun v => v.lockId == c1.lockId)).length ≤ 1) :
    (storeVcList (storeVcList l c1) c2).find?
        (fun v => v.lockId == c1.lockId) = some c2 ∧
      ((storeVcList (storeVcList l c1) c2).filter
        (fun v => v.lockId == c1.lockId)).length = 1 := by
  induction l with
  | nil =>
      constructor
      · simp [storeVcList, hid, List.find?]
      · simp [storeVcList, hid]
  | cons x xs ih =>
      by_cases hx : (x.lockId == c1.lockId) = true
      · have hx1 : (x.lockId == c1.lockId) = true := hx
        have hfx : (xs.filter (fun v => v.lockId == c1.lockId)).length = 0 := by
          have := hinv
          rw [List.filter_cons, if_pos hx1] at this
          simpa using Nat.le_of_succ_le_succ this
        have hstep1 : storeVcList (x :: xs) c1 = c1 :: xs := by
          rw [storeVcList, if_pos hx1]
        have hstep2 : storeVcList (c1 :: xs) c2 = c2 :: xs := by
          rw [storeVcList, if_pos (by simpa using hid)]
        rw [hstep1, hstep2]
        constructor
        · simp [List.find?, hid]
        · rw [List.filter_cons, if_pos (by simpa using hid.symm)]
          simpa using hfx
      · have hx0 : (x.lockId == c1.lockId) = false := by
          simpa using hx
        have hx2 : (x.lockId == c2.lockId) = false := by
          rw [← hid]; exact hx0
        have hinv' : (xs.filter (fun v => v.lockId == c1.lockId)).length ≤ 1 := by
          have := hinv
          rw [List.filter_cons, if_neg (by simp [hx0])] at this
          exact this
        have hstep1 : storeVcList (x :: xs) c1 = x :: storeVcList xs c1 := by
          rw [storeVcList, if_neg (by simp [hx0])]
        have hstep2 : storeVcList (x :: storeVcList xs c1) c2 =
            x :: storeVcList (storeVcList xs c1) c2 := by
          rw [storeVcList, if_neg (by simp [hx2])]
        rw [hstep1, hstep2]
        obtain ⟨ihf, ihl⟩ := ih hinv'
        constructor
        · rw [List.find?_cons_of_neg _ (by simp [hx0])]
          exact ihf
        · rw [List.filter_cons, if_neg (by simp [hx0])]
          exact ihl

/-- C9: storing `c1` then `c2` for the same lockId in a holder store that
satisfies the one-credential-per-lock invariant for that lockId leaves
`getCredentialForLock` returning `c2`, with exactly one stored credential
for that lockId: the earlier credential is discarded, not retained. -/
theorem c9_one_credential_per_lock (u : User) (c1 c2 : VC)
    (hid : c1.lockId = c2.lockId)
    (hinv : (u.vcs.filter (fun v => v.lockId == c1.lockId)).length ≤ 1) :
    ((u.storeVc c1).storeVc c2).getCredentialForLock c1.lockId = some c2 ∧
      (((u.storeVc c1).storeVc c2).vcs.filter
        (fun v => v.lockId == c1.lockId)).length = 1 := by
  have h1 : (u.storeVc c1).vcs = storeVcList u.vcs c1 :=
    storeVc_eq_storeVcList u.vcs c1
  have h2 : ((u.storeVc c1).storeVc c2).vcs =
      storeVcList (storeVcList u.vcs c1) c2 := by
    calc ((u.storeVc c1).storeVc c2).vcs
        = ((User.mk ((u.storeVc c1).vcs)).storeVc c2).vcs := rfl
      _ = ((User.mk (storeVcList u.vcs c1)).storeVc c2).vcs := by rw [h1]
      _ = storeVcList (storeVcList u.vcs c1) c2 :=
          storeVc_eq_storeVcList _ c2
  obtain ⟨hf, hl⟩ := storeVcList_twice u.vcs c1 c2 hid hinv
  exact ⟨by rw [User.getCredentialForLock, h2]; exact hf, by rw [h2]; exact hl⟩

/-- Witness for C9 at a concrete input: an empty holder stores two
credentials for lock 1; the second replaces the first. -/
theorem c9_one_credential_per_lock_witness :
    ((1 : Nat) = 1 ∧
        ((User.mk []).vcs.filter (fun v => v.lockId == 1)).length ≤ 1) ∧
      (((User.mk []).storeVc ⟨1, "h1", "a", "s1"⟩).storeVc
          ⟨1, "h2", "b", "s2"⟩).getCredentialForLock 1 =
          some ⟨1, "h2", "b", "s2"⟩ ∧
        ((((User.mk []).storeVc ⟨1, "h1", "a", "s1"⟩).storeVc
          ⟨1, "h2", "b", "s2"⟩).vcs.filter
            (fun v => v.lockId == 1)).length = 1 :=
  ⟨⟨rfl, by decide⟩,
    c9_one_credential_per_lock (User.mk []) ⟨1, "h1", "a", "s1"⟩
      ⟨1, "h2", "b", "s2"⟩ rfl (by decide)⟩

/-- Lookup in an association-list model of a JavaScript `Map`
(`map.get`). -/
def alGet {α : Type} (m : List (Nat × α)) (k : Nat) : Option α :=
  (m.find? (fun p => p.1 == k)).map (fun p => p.2)

/-- Update in an association-list model of a JavaScript `Map`
(`map.set`): replace in place if the key exists, append otherwise. -/
def alSet {α : Type} (m : List (Nat × α)) (k : Nat) (v : α) :
    List (Nat × α) :=
  match m with
  | [] => [(k, v)]
  | p :: rest => if p.1 == k then (k, v) :: rest else p :: alSet rest k v

/-- Insertion in the model of a JavaScript `Set` of strings (`set.add`):
append if absent, keep unchanged otherwise. -/
def setAdd (l : List String) (s : String) : List String :=
  if l.contains s then l else l ++ [s]

/-- The registry state (smart-contract.ts `SmartContract`, the variant
with per-lock revoked-signature sets): lockId to public key, lockId to
owner address, lockId to set of revoked signatures, and the id
counter. -/
structure SmartContract where
  lockPublicKeys : List (Nat × String)
  lockOwners : List (Nat × String)
  revoked : List (Nat × List String)
  lockCounter : Nat
deriving DecidableEq, Repr

/-- The registry state produced by the private constructor: empty maps,
counter 1. -/
def SmartContract.initial : SmartContract :=
  ⟨[], [], [], 1⟩

/-- Errors thrown by the registry. -/
inductive ContractError where
  | notFound (lockId : Nat)
  | unauthorized (owner : String) (lockId : Nat)
deriving DecidableEq, Repr

/-- `SmartContract.registerLock`: take the current counter as the new
lockId, post-increment it, store public key and owner; returns the id
with the new state. -/
def SmartContract.registerLock (sc : SmartContract) (pubK owner : String) :
    Nat × SmartContract :=
  let lockId := sc.lockCounter
  (lockId,
    { sc with
      lockCounter := sc.lockCounter + 1
      lockPublicKeys := alSet sc.lockPublicKeys lockId pubK
      lockOwners := alSet sc.lockOwners lockId owner })

/-- `SmartContract.revokeSignature`: throw `notFound` when the lockId is
not in the owners map, `unauthorized` when the caller is not the stored
owner; otherwise add the signature to the (lazily created) revoked set of
that lock.  A thrown error is returned next to the unchanged state (the
source mutates nothing before throwing). -/
def SmartContract.revokeSignature (sc : SmartContract) (lockId : Nat)
    (signature owner : String) : SmartContract × Option ContractError :=
  match alGet sc.lockOwners lockId with
  | none => (sc, some (ContractError.notFound lockId))
  | some stored =>
      if stored ≠ owner then
        (sc, some (ContractError.unauthorized owner lockId))
      else
        (({ sc with
            revoked := alSet sc.revoked lockId
              (setAdd ((alGet sc.revoked lockId).getD []) signature) }),
          none)

/-- `SmartContract.fetchRevokedSignatures`: plain map lookup — returns
`undefined` (here `none`) whenever the lockId has no entry in the revoked
map, registered or not. -/
def SmartContract.fetchRevokedSignatures (sc : SmartContract)
    (lockId : Nat) : Option (List String) :=
  alGet sc.revoked lockId

/-- `SmartContract.isOwner`: `lockOwners.get(lockId) === owner`; an
absent entry compares unequal to every address. -/
def SmartContract.isOwner (sc : SmartContract) (owner : String)
    (lockId : Nat) : Bool :=
  alGet sc.lockOwners lockId == some owner

/-- `SmartContract.getOwner`: plain map lookup. -/
def SmartContract.getOwner (sc : SmartContract) (lockId : Nat) :
    Option String :=
  alGet sc.lockOwners lockId

/-- `SmartContract.transferOwnership`: `notFound` when the lockId is
unknown, `unauthorized` when the caller is not the stored owner,
otherwise replace the owner. -/
def SmartContract.transferOwnership (sc : SmartContract) (lockId : Nat)
    (currentOwner newOwner : String) : SmartContract × Option ContractError :=
  match alGet sc.lockOwners lockId with
  | none => (sc, some (ContractError.notFound lockId))
  | some stored =>
      if stored ≠ currentOwner then
        (sc, some (ContractError.unauthorized currentOwner lockId))
      else
        ({ sc with lockOwners := alSet sc.lockOwners lockId newOwner }, none)

/-- `SmartContract.fetchPublicKey`: `null` when the lockId is unknown;
otherwise `get(lockId) || null`, which also maps an empty stored string
to `null`. -/
def SmartContract.fetchPublicKey (sc : SmartContract) (lockId : Nat) :
    Option String :=
  match alGet sc.lockPublicKeys lockId with
  | none => none
  | some k => if k == "" then none else some k

/-- Reading an association list at the key just written yields the new
value. -/
theorem alGet_alSet_self {α : Type} (m : List (Nat × α)) (k : Nat) (v : α) :
    alGet (alSet m k v) k = some v := by
  induction m with
  | nil => simp [alGet, alSet, List.find?]
  | cons p rest ih =>
      by_cases hp : p.1 = k
      · have hb : (p.1 == k) = true := beq_iff_eq.mpr hp
        simp [alSet, hb, alGet, List.find?]
      · have hb : (p.1 == k) = false := beq_eq_false_iff_ne.mpr hp
        simpa [alSet, hb, alGet, List.find?] using ih

/-- Reading an association list at another key is unchanged by a
write. -/
theorem alGet_alSet_ne {α : Type} (m : List (Nat × α)) (k j : Nat) (v : α)
    (h : j ≠ k) : alGet (alSet m k v) j = alGet m j := by
  have hk : (k == j) = false := beq_eq_false_iff_ne.mpr (Ne.symm h)
  induction m with
  | nil => simp [alGet, alSet, List.find?, hk]
  | cons p rest ih =>
      by_cases hpk : p.1 = k
      · have hb : (p.1 == k) = true := beq_iff_eq.mpr hpk
        have hpj : (p.1 == j) = false := by
          rw [hpk]; exact hk
        simp [alSet, hb, alGet, List.find?, hk, hpj]
      · have hb : (p.1 == k) = false := beq_eq_false_iff_ne.mpr hpk
        by_cases hpj : p.1 = j
        · have hbj : (p.1 == j) = true := beq_iff_eq.mpr hpj
          simp [alSet, hb, alGet, List.find?, hbj]
        · have hbj : (p.1 == j) = false := beq_eq_false_iff_ne.mpr hpj
          simpa [alSet, hb, alGet, List.find?, hbj] using ih

/-- Membership in the model of `set.add`. -/
theorem mem_setAdd (l : List String) (s x : String) :
    x ∈ setAdd l s ↔ x ∈ l ∨ x = s := by
  unfold setAdd
  by_cases h : l.contains s = true
  · rw [if_pos h]
    have hs : s ∈ l := by simpa using h
    constructor
    · exact Or.inl
    · rintro (hx | rfl)
      · exact hx
      · exact hs
  · rw [if_neg h]
    simp

/-- `revokeSignature` never changes the owners map. -/
theorem revokeSignature_lockOwners (sc : SmartContract) (lockId : Nat)
    (sig owner : String) :
    (sc.revokeSignature lockId sig owner).1.lockOwners = sc.lockOwners := by
  unfold SmartContract.revokeSignature
  rcases alGet sc.lockOwners lockId with _ | stored
  · rfl
  · by_cases h : stored ≠ owner
    · simp [h]
    · simp [h]

/-- `revokeSignature` never changes the public-key map. -/
theorem revokeSignature_lockPublicKeys (sc : SmartContract) (lockId : Nat)
    (sig owner : String) :
    (sc.revokeSignature lockId sig owner).1.lockPublicKeys =
      sc.lockPublicKeys := by
  unfold SmartContract.revokeSignature
  rcases alGet sc.lockOwners lockId with _ | stored
  · rfl
  · by_cases h : stored ≠ owner
    · simp [h]
    · simp [h]

/-- `revokeSignature` never changes the id counter. -/
theorem revokeSignature_lockCounter (sc : SmartContract) (lockId : Nat)
    (sig owner : String) :
    (sc.revokeSignature lockId sig owner).1.lockCounter = sc.lockCounter := by
  unfold SmartContract.revokeSignature
  rcases alGet sc.lockOwners lockId with _ | stored
  · rfl
  · by_cases h : stored ≠ owner
    · simp [h]
    · simp [h]

/-- `transferOwnership` never changes the public-key map, the revoked
map or the counter. -/
theorem transferOwnership_frame (sc : SmartContract) (lockId : Nat)
    (currentOwner newOwner : String) :
    (sc.transferOwnership lockId currentOwner newOwner).1.lockPublicKeys =
        sc.lockPublicKeys ∧
      (sc.transferOwnership lockId currentOwner newOwner).1.revoked =
        sc.revoked ∧
      (sc.transferOwnership lockId currentOwner newOwner).1.lockCounter =
        sc.lockCounter := by
  unfold SmartContract.transferOwnership
  rcases alGet sc.lockOwners lockId with _ | stored
  · exact ⟨rfl, rfl, rfl⟩
  · by_cases h : stored ≠ currentOwner
    · simp [h]
    · simp [h]

/-- A revocation attempt by a non-owner fails with `unauthorized` and
returns the state unchanged. -/
theorem revokeSignature_unauthorized (sc : SmartContract) (lockId : Nat)
    (sig caller ow : String) (h : alGet sc.lockOwners lockId = some ow)
    (hne : ow ≠ caller) :
    sc.revokeSignature lockId sig caller =
      (sc, some (ContractError.unauthorized caller lockId)) := by
  unfold SmartContract.revokeSignature
  rw [h]
  simp [hne]

/-- An ownership-transfer attempt by a non-owner fails with
`unauthorized` and returns the state unchanged. -/
theorem transferOwnership_unauthorized (sc : SmartContract) (lockId : Nat)
    (caller newOwner ow : String) (h : alGet sc.lockOwners lockId = some ow)
    (hne : ow ≠ caller) :
    sc.transferOwnership lockId caller newOwner =
      (sc, some (ContractError.unauthorized caller lockId)) := by
  unfold SmartContract.transferOwnership
  rw [h]
  simp [hne]

/-- C6: `revokeSignature` fails with `notFound` exactly when the lockId
is not registered, fails with `unauthorized` exactly when the lockId is
registered but the caller differs from the stored owner, and otherwise
adds the signature to that lock's revoked set; revoking the same
signature twice succeeds and leaves the set containing it. -/
theorem c6_revoke_signature_semantics (sc : SmartContract) (lockId : Nat)
    (sig caller : String) :
    ((sc.revokeSignature lockId sig caller).2 =
        some (ContractError.notFound lockId) ↔
      alGet sc.lockOwners lockId = none) ∧
    ((sc.revokeSignature lockId sig caller).2 =
        some (ContractError.unauthorized caller lockId) ↔
      ∃ ow, alGet sc.lockOwners lockId = some ow ∧ ow ≠ caller) ∧
    (alGet sc.lockOwners lockId = some caller →
      (sc.revokeSignature lockId sig caller).2 = none ∧
      alGet (sc.revokeSignature lockId sig caller).1.revoked lockId =
        some (setAdd ((alGet sc.revoked lockId).getD []) sig) ∧
      sig ∈ setAdd ((alGet sc.revoked lockId).getD []) sig) ∧
    (alGet sc.lockOwners lockId = some caller →
      ((sc.revokeSignature lockId sig caller).1.revokeSignature lockId sig
          caller).2 = none ∧
      sig ∈ (alGet ((sc.revokeSignature lockId sig caller).1.revokeSignature
          lockId sig caller).1.revoked lockId).getD []) := by
  refine ⟨?_, ?_, ?_, ?_⟩
  · rcases hown : alGet sc.lockOwners lockId with _ | stored
    · simp [SmartContract.revokeSignature, hown]
    · by_cases hne : stored ≠ caller
      · simp [SmartContract.revokeSignature, hown, hne]
      · simp [SmartContract.revokeSignature, hown, hne]
  · rcases hown : alGet sc.lockOwners lockId with _ | stored
    · simp [SmartContract.revokeSignature, hown]
    · by_cases hne : stored ≠ caller
      · simp only [SmartContract.revokeSignature, hown, if_pos hne]
        constructor
        · intro _; exact ⟨stored, rfl, hne⟩
        · intro _; trivial
      · simp only [SmartContract.revokeSignature, hown, if_neg hne]
        push_neg at hne
        constructor
        · intro hcon; cases hcon
        · rintro ⟨ow, how, hOwNe⟩
          cases how
          exact absurd hne hOwNe
  · intro hown
    refine ⟨?_, ?_, ?_⟩
    · simp [SmartContract.revokeSignature, hown]
    · simp [SmartContract.revokeSignature, hown, alGet_alSet_self]
    · exact (mem_setAdd _ sig sig).mpr (Or.inr rfl)
  · intro hown
    have h2 : (sc.revokeSignature lockId sig caller).2 = none := by
      simp [SmartContract.revokeSignature, hown]
    have hown1 :
        alGet (sc.revokeSignature lockId sig caller).1.lockOwners lockId =
          some caller := by
      rw [revokeSignature_lockOwners]; exact hown
    have hrev1 :
        alGet (sc.revokeSignature lockId sig caller).1.revoked lockId =
          some (setAdd ((alGet sc.revoked lockId).getD []) sig) := by
      simp [SmartContract.revokeSignature, hown, alGet_alSet_self]
    obtain ⟨sc1, hsc1⟩ : ∃ x, (sc.revokeSignature lockId sig caller).1 = x :=
      ⟨_, rfl⟩
    rw [hsc1] at hown1 hrev1
    rw [hsc1]
    refine ⟨?_, ?_⟩
    · simp [SmartContract.revokeSignature, hown1]
    · simp only [SmartContract.revokeSignature, hown1, ne_eq,
        not_true_eq_false, if_neg, if_false]
      simp only [alGet_alSet_self, hrev1, Option.getD_some]
      exact (mem_setAdd _ sig sig).mpr (Or.inr rfl)

/-- Witness for C6 at a concrete registry with lock 1 owned by `alice`:
evaluates every part of the semantics theorem. -/
theorem c6_revoke_signature_semantics_witness :
    ((SmartContract.mk [(1, "pk")] [(1, "alice")] [] 2).revokeSignature 1
        "sig" "alice").2 = none ∧
      alGet ((SmartContract.mk [(1, "pk")] [(1, "alice")] [] 2).revokeSignature
          1 "sig" "alice").1.revoked 1 = some ["sig"] := by
  have h := c6_revoke_signature_semantics
    (SmartContract.mk [(1, "pk")] [(1, "alice")] [] 2) 1 "sig" "alice"
  refine ⟨(h.2.2.1 (by decide)).1, ?_⟩
  have h2 := (h.2.2.1 (by decide)).2.1
  simpa using h2

/-- C7: a `revokeSignature` or `transferOwnership` call whose caller is
not the stored owner of a registered lockId fails with `unauthorized`
and leaves the whole registry state (owners, public keys, revoked sets,
counter) unchanged. -/
theorem c7_ownership_gating (sc : SmartContract) (lockId : Nat)
    (sig caller newOwner ow : String)
    (h : alGet sc.lockOwners lockId = some ow) (hne : ow ≠ caller) :
    sc.revokeSignature lockId sig caller =
        (sc, some (ContractError.unauthorized caller lockId)) ∧
      sc.transferOwnership lockId caller newOwner =
        (sc, some (ContractError.unauthorized caller lockId)) :=
  ⟨revokeSignature_unauthorized sc lockId sig caller ow h hne,
    transferOwnership_unauthorized sc lockId caller newOwner ow h hne⟩

/-- Witness for C7 at a concrete registry: `bob` can neither revoke nor
transfer on the lock owned by `alice`, and the state is untouched. -/
theorem c7_ownership_gating_witness :
    (SmartContract.mk [(1, "pk")] [(1, "alice")] [] 2).revokeSignature 1
        "sig" "bob" =
      (SmartContract.mk [(1, "pk")] [(1, "alice")] [] 2,
        some (ContractError.unauthorized "bob" 1)) ∧
    (SmartContract.mk [(1, "pk")] [(1, "alice")] [] 2).transferOwnership 1
        "bob" "carol" =
      (SmartContract.mk [(1, "pk")] [(1, "alice")] [] 2,
        some (ContractError.unauthorized "bob" 1)) :=
  c7_ownership_gating (SmartContract.mk [(1, "pk")] [(1, "alice")] [] 2) 1
    "sig" "bob" "carol" "alice" (by decide) (by decide)

/-- C4 counterexample: in the state reached by registering one lock from
the fresh registry, lock 1 is registered (its owner is stored), yet
`fetchRevokedSignatures 1` reports not-found (`undefined`) instead of an
empty set, because `registerLock` never creates the revoked-set entry. -/
theorem c4_counterexample :
    alGet (SmartContract.initial.registerLock "pk" "alice").2.lockOwners 1 =
        some "alice" ∧
      (SmartContract.initial.registerLock "pk"
          "alice").2.fetchRevokedSignatures 1 = none := by
  decide

/-- C4 as amended: `fetchRevokedSignatures` reports not-found exactly
when the lockId has no revoked-set entry at all — in particular a
registered lock that never had a revocation still reports not-found,
since registration does not touch the revoked map; once a revocation
succeeds, the revoked set is returned and contains the signature. -/
theorem c4_fetch_revoked_amended (sc : SmartContract) (lockId : Nat)
    (p o sig caller : String) :
    (sc.fetchRevokedSignatures lockId = none ↔
        alGet sc.revoked lockId = none) ∧
      (sc.registerLock p o).2.fetchRevokedSignatures lockId =
        sc.fetchRevokedSignatures lockId ∧
      ((sc.revokeSignature lockId sig caller).2 = none →
        (sc.revokeSignature lockId sig caller).1.fetchRevokedSignatures
            lockId =
          some (setAdd ((alGet sc.revoked lockId).getD []) sig)) := by
  refine ⟨Iff.rfl, rfl, ?_⟩
  intro hok
  rcases hown : alGet sc.lockOwners lockId with _ | stored
  · rw [SmartContract.revokeSignature, hown] at hok
    simp at hok
  · by_cases hne : stored ≠ caller
    · rw [SmartContract.revokeSignature, hown] at hok
      simp [hne] at hok
    · simp [SmartContract.fetchRevokedSignatures,
        SmartContract.revokeSignature, hown, hne, alGet_alSet_self]

/-- Witness for C4 as amended, on the concrete registry with lock 1
owned by `alice`. -/
theorem c4_fetch_revoked_amended_witness :
    ((SmartContract.mk [(1, "pk")] [(1, "alice")] [] 2).revokeSignature 1
          "sig" "alice").2 = none ∧
      ((SmartContract.mk [(1, "pk")] [(1, "alice")] [] 2).revokeSignature 1
          "sig" "alice").1.fetchRevokedSignatures 1 = some ["sig"] := by
  have h := c4_fetch_revoked_amended
    (SmartContract.mk [(1, "pk")] [(1, "alice")] [] 2) 1 "p" "o" "sig" "alice"
  have hok : ((SmartContract.mk [(1, "pk")] [(1, "alice")] [] 2).revokeSignature
      1 "sig" "alice").2 = none := by decide
  refine ⟨hok, ?_⟩
  simpa using h.2.2 hok

/-- A registry call: the three mutating operations of the contract. -/
inductive RegistryOp where
  | register (pubK owner : String)
  | revoke (lockId : Nat) (signature owner : String)
  | transfer (lockId : Nat) (currentOwner newOwner : String)
deriving DecidableEq, Repr

/-- State after one registry call (results and errors discarded). -/
def SmartContract.step (sc : SmartContract) : RegistryOp → SmartContract
  | RegistryOp.register p o => (sc.registerLock p o).2
  | RegistryOp.revoke l s o => (sc.revokeSignature l s o).1
  | RegistryOp.transfer l c n => (sc.transferOwnership l c n).1

/-- State after a sequence of registry calls. -/
def SmartContract.runOps (sc : SmartContract) : List RegistryOp → SmartContract
  | [] => sc
  | op :: rest => (sc.step op).runOps rest

/-- The lockIds returned by the `registerLock` calls of a sequence, in
call order. -/
def SmartContract.regIds (sc : SmartContract) : List RegistryOp → List Nat
  | [] => []
  | RegistryOp.register p o :: rest =>
      (sc.registerLock p o).1 :: (sc.step (RegistryOp.register p o)).regIds rest
  | op :: rest => (sc.step op).regIds rest

/-- Number of `register` calls in a sequence. -/
def regCount : List RegistryOp → Nat
  | [] => 0
  | RegistryOp.register _ _ :: rest => regCount rest + 1
  | _ :: rest => regCount rest

/-- Only `registerLock` moves the id counter, and it increments it. -/
theorem step_lockCounter (sc : SmartContract) (op : RegistryOp) :
    (sc.step op).lockCounter =
      match op with
      | RegistryOp.register _ _ => sc.lockCounter + 1
      | _ => sc.lockCounter := by
  cases op with
  | register p o => rfl
  | revoke l s o => exact revokeSignature_lockCounter sc l s o
  | transfer l c n =>
      exact (transferOwnership_frame sc l c n).2.2

/-- The ids handed out along any call sequence are the consecutive
integers starting at the current counter. -/
theorem regIds_eq_range' (ops : List RegistryOp) (sc : SmartContract) :
    sc.regIds ops = List.range' sc.lockCounter (regCount ops) := by
  induction ops generalizing sc with
  | nil => rfl
  | cons op rest ih =>
      cases op with
      | register p o =>
          have hc : (sc.step (RegistryOp.register p o)).lockCounter =
              sc.lockCounter + 1 := rfl
          rw [SmartContract.regIds, ih, hc, regCount, List.range'_succ]
          rfl
      | revoke l s o =>
          have hc : (sc.step (RegistryOp.revoke l s o)).lockCounter =
              sc.lockCounter := revokeSignature_lockCounter sc l s o
          rw [show sc.regIds (RegistryOp.revoke l s o :: rest) =
              (sc.step (RegistryOp.revoke l s o)).regIds rest from rfl,
            ih, hc,
            show regCount (RegistryOp.revoke l s o :: rest) = regCount rest
              from rfl]
      | transfer l c n =>
          have hc : (sc.step (RegistryOp.transfer l c n)).lockCounter =
              sc.lockCounter := (transferOwnership_frame sc l c n).2.2
          rw [show sc.regIds (RegistryOp.transfer l c n :: rest) =
              (sc.step (RegistryOp.transfer l c n)).regIds rest from rfl,
            ih, hc,
            show regCount (RegistryOp.transfer l c n :: rest) = regCount rest
              from rfl]

/-- C8: along every call sequence on a fresh registry, the lockIds
returned by `registerLock` are the consecutive integers starting at 1:
the first registration returns 1, the ids are strictly increasing (each
id exceeds every earlier one), and no id is ever repeated. -/
theorem c8_register_ids_strictly_increasing (ops : List RegistryOp) :
    SmartContract.initial.regIds ops = List.range' 1 (regCount ops) ∧
      List.Pairwise (fun a b => a < b) (SmartContract.initial.regIds ops) ∧
      (SmartContract.initial.regIds ops).head? =
        (if regCount ops = 0 then none else some 1) ∧
      (SmartContract.initial.regIds ops).Nodup := by
  have h := regIds_eq_range' ops SmartContract.initial
  refine ⟨h, ?_, ?_, ?_⟩
  · rw [h]; exact List.pairwise_lt_range' 1 (regCount ops)
  · rw [h]; exact List.head?_range' (regCount ops)
  · rw [h]; exact List.nodup_range' 1 (regCount ops)

/-- `transferOwnership` never adds a key to the owners map. -/
theorem transferOwnership_lockOwners_isSome (sc : SmartContract) (l : Nat)
    (c n : String) (lockId : Nat)
    (h : (alGet (sc.transferOwnership l c n).1.lockOwners lockId).isSome =
      true) : (alGet sc.lockOwners lockId).isSome = true := by
  unfold SmartContract.transferOwnership at h
  split at h
  · exact h
  · next stored heq =>
      split at h
      · exact h
      · by_cases hid : lockId = l
        · rw [hid, heq]; rfl
        · rwa [alGet_alSet_ne sc.lockOwners l lockId n hid] at h

/-- Reading the owners map of any state reached from `sc` either reads
an entry already present in `sc` or a lockId handed out by a
registration along the way. -/
theorem runOps_lockOwners_domain (ops : List RegistryOp)
    (sc : SmartContract) (lockId : Nat)
    (h : (alGet (sc.runOps ops).lockOwners lockId).isSome = true) :
    (alGet sc.lockOwners lockId).isSome = true ∨ lockId ∈ sc.regIds ops := by
  induction ops generalizing sc with
  | nil => exact Or.inl h
  | cons op rest ih =>
      rcases ih (sc.step op) h with hstep | hmem
      · cases op with
        | register p o =>
            by_cases hid : lockId = sc.lockCounter
            · exact Or.inr (by rw [SmartContract.regIds, hid]; exact
                List.mem_cons_self _ _)
            · left
              have : alGet (sc.step (RegistryOp.register p o)).lockOwners
                  lockId = alGet sc.lockOwners lockId :=
                alGet_alSet_ne sc.lockOwners sc.lockCounter lockId o hid
              rwa [this] at hstep
        | revoke l s o =>
            left
            rwa [show (sc.step (RegistryOp.revoke l s o)).lockOwners =
              sc.lockOwners from revokeSignature_lockOwners sc l s o] at hstep
        | transfer l c n =>
            exact Or.inl
              (transferOwnership_lockOwners_isSome sc l c n lockId hstep)
      · right
        cases op with
        | register p o =>
            rw [SmartContract.regIds]
            exact List.mem_cons_of_mem _ hmem
        | revoke l s o => exact hmem
        | transfer l c n => exact hmem

/-- Reading the public-key map of any state reached from `sc` either
reads an entry already present in `sc` or a lockId handed out by a
registration along the way. -/
theorem runOps_lockPublicKeys_domain (ops : List RegistryOp)
    (sc : SmartContract) (lockId : Nat)
    (h : (alGet (sc.runOps ops).lockPublicKeys lockId).isSome = true) :
    (alGet sc.lockPublicKeys lockId).isSome = true ∨
      lockId ∈ sc.regIds ops := by
  induction ops generalizing sc with
  | nil => exact Or.inl h
  | cons op rest ih =>
      rcases ih (sc.step op) h with hstep | hmem
      · cases op with
        | register p o =>
            by_cases hid : lockId = sc.lockCounter
            · exact Or.inr (by rw [SmartContract.regIds, hid]; exact
                List.mem_cons_self _ _)
            · left
              have : alGet (sc.step (RegistryOp.register p o)).lockPublicKeys
                  lockId = alGet sc.lockPublicKeys lockId :=
                alGet_alSet_ne sc.lockPublicKeys sc.lockCounter lockId p hid
              rwa [this] at hstep
        | revoke l s o =>
            left
            rwa [show (sc.step (RegistryOp.revoke l s o)).lockPublicKeys =
              sc.lockPublicKeys from
                revokeSignature_lockPublicKeys sc l s o] at hstep
        | transfer l c n =>
            left
            rwa [show (sc.step (RegistryOp.transfer l c n)).lockPublicKeys =
              sc.lockPublicKeys from
                (transferOwnership_frame sc l c n).1] at hstep
      · right
        cases op with
        | register p o =>
            rw [SmartContract.regIds]
            exact List.mem_cons_of_mem _ hmem
        | revoke l s o => exact hmem
        | transfer l c n => exact hmem

/-- C10: the read-only lookups are total over arbitrary lockIds: in any
state reached from the fresh registry, a lockId never handed out by a
registration has `isOwner` false for every address and `fetchPublicKey`
null; neither operation has an error path. -/
theorem c10_lookups_total_on_unknown (ops : List RegistryOp) (lockId : Nat)
    (owner : String)
    (h : lockId ∉ SmartContract.initial.regIds ops) :
    (SmartContract.initial.runOps ops).isOwner owner lockId = false ∧
      (SmartContract.initial.runOps ops).fetchPublicKey lockId = none := by
  have hown : alGet (SmartContract.initial.runOps ops).lockOwners lockId =
      none := by
    rcases hcase : alGet (SmartContract.initial.runOps ops).lockOwners lockId
      with _ | v
    · rfl
    · rcases runOps_lockOwners_domain ops SmartContract.initial lockId
        (by rw [hcase]; rfl) with hbase | hmem
      · simp [SmartContract.initial, alGet, List.find?] at hbase
      · exact absurd hmem h
  have hpk : alGet (SmartContract.initial.runOps ops).lockPublicKeys lockId =
      none := by
    rcases hcase : alGet
        (SmartContract.initial.runOps ops).lockPublicKeys lockId with _ | v
    · rfl
    · rcases runOps_lockPublicKeys_domain ops SmartContract.initial lockId
        (by rw [hcase]; rfl) with hbase | hmem
      · simp [SmartContract.initial, alGet, List.find?] at hbase
      · exact absurd hmem h
  constructor
  · rw [SmartContract.isOwner, hown]; rfl
  · rw [SmartContract.fetchPublicKey, hpk]

/-- Witness for C10 after one registration: lock 2 was never handed out,
so both lookups return their absent values. -/
theorem c10_lookups_total_on_unknown_witness :
    (SmartContract.initial.runOps [RegistryOp.register "pk" "alice"]).isOwner
        "alice" 2 = false ∧
      (SmartContract.initial.runOps
        [RegistryOp.register "pk" "alice"]).fetchPublicKey 2 = none :=
  c10_lookups_total_on_unknown [RegistryOp.register "pk" "alice"] 2 "alice"
    (by decide)

/-- The revocation-aware verifier (device.ts `Device`, the variant with a
local revoked-signature cache). -/
structure Device where
  lockId : Nat
  pubK : String
  revokedSignatures : List String
deriving DecidableEq, Repr

/-- `Device.fetchRevokedSignatures`: pull the registry's revoked set for
this lockId and add every signature in it to the local cache; when the
registry reports no set (unknown lockId or no revocations recorded) the
cache is left unchanged. -/
def Device.fetchRevokedSignatures (d : Device) (sc : SmartContract) :
    Device :=
  match sc.fetchRevokedSignatures d.lockId with
  | none => d
  | some sigs =>
      { d with revokedSignatures := sigs.foldl setAdd d.revokedSignatures }

/-- `Device.verifyVc` (revocation-aware variant): reject when the
credential's signature is in the local revoked cache, otherwise return
the codec verification of the signature over the metadata hash under
this device's public key.  Note: this variant performs no lockId
comparison. -/
def Device.verifyVc (rsaVerify : CryptoBackend) (d : Device) (vc : VC) :
    Bool :=
  if d.revokedSignatures.contains vc.signature then false
  else CryptoUtils.verify rsaVerify vc.userMetaDataHash vc.signature d.pubK

/-- Folding `setAdd` over a list keeps old members and adds every list
element. -/
theorem mem_foldl_setAdd (l acc : List String) (x : String)
    (h : x ∈ acc ∨ x ∈ l) : x ∈ l.foldl setAdd acc := by
  induction l generalizing acc with
  | nil =>
      rcases h with h | h
      · exact h
      · cases h
  | cons y ys ih =>
      rw [List.foldl_cons]
      apply ih
      rcases h with h | h
      · exact Or.inl ((mem_setAdd acc y x).mpr (Or.inl h))
      · rcases List.mem_cons.mp h with rfl | h
        · exact Or.inl ((mem_setAdd acc x x).mpr (Or.inr rfl))
        · exact Or.inr h

/-- A successful `revokeSignature` leaves the revoked set of the lock
defined and containing the signature. -/
theorem revokeSignature_ok_revoked (sc sc₁ : SmartContract) (lockId : Nat)
    (sig owner : String)
    (h : sc.revokeSignature lockId sig owner = (sc₁, none)) :
    ∃ l, alGet sc₁.revoked lockId = some l ∧ sig ∈ l := by
  unfold SmartContract.revokeSignature at h
  split at h
  · exact absurd (congrArg Prod.snd h) (by simp)
  · split at h
    · exact absurd (congrArg Prod.snd h) (by simp)
    · rw [Prod.mk.injEq] at h
      obtain ⟨h1, -⟩ := h
      refine ⟨setAdd ((alGet sc.revoked lockId).getD []) sig, ?_, ?_⟩
      · rw [← h1]
        exact alGet_alSet_self sc.revoked lockId _
      · exact (mem_setAdd _ sig sig).mpr (Or.inr rfl)

/-- One registry call never removes a signature from a lock's revoked
set. -/
theorem step_revoked_mono (sc : SmartContract) (op : RegistryOp)
    (lockId : Nat) (l : List String)
    (h : alGet sc.revoked lockId = some l) :
    ∃ l2, alGet (sc.step op).revoked lockId = some l2 ∧ ∀ x ∈ l, x ∈ l2 := by
  cases op with
  | register p o => exact ⟨l, h, fun x hx => hx⟩
  | transfer l2 c n =>
      refine ⟨l, ?_, fun x hx => hx⟩
      rw [show (sc.step (RegistryOp.transfer l2 c n)).revoked = sc.revoked
        from (transferOwnership_frame sc l2 c n).2.1]
      exact h
  | revoke lid s o =>
      show ∃ l2,
        alGet (sc.revokeSignature lid s o).1.revoked lockId = some l2 ∧ _
      unfold SmartContract.revokeSignature
      split
      · exact ⟨l, h, fun x hx => hx⟩
      · split
        · exact ⟨l, h, fun x hx => hx⟩
        · by_cases hid : lockId = lid
          · subst hid
            rw [h]
            refine ⟨setAdd l s, ?_, fun x hx => (mem_setAdd l s x).mpr
              (Or.inl hx)⟩
            simpa using alGet_alSet_self sc.revoked lockId (setAdd l s)
          · exact ⟨l, by simpa [alGet_alSet_ne sc.revoked lid lockId _ hid]
              using h, fun x hx => hx⟩

/-- No sequence of registry calls removes a signature from a lock's
revoked set. -/
theorem runOps_revoked_mono (ops : List RegistryOp) (sc : SmartContract)
    (lockId : Nat) (l : List String)
    (h : alGet sc.revoked lockId = some l) :
    ∃ l2, alGet (sc.runOps ops).revoked lockId = some l2 ∧
      ∀ x ∈ l, x ∈ l2 := by
  induction ops generalizing sc l with
  | nil => exact ⟨l, h, fun x hx => hx⟩
  | cons op rest ih =>
      obtain ⟨l1, hl1, hsub1⟩ := step_revoked_mono sc op lockId l h
      obtain ⟨l2, hl2, hsub2⟩ := ih (sc.step op) l1 hl1
      exact ⟨l2, hl2, fun x hx => hsub2 x (hsub1 x hx)⟩

/-- C2: once `revokeSignature(lockId, s, owner)` succeeds on the
registry, a verifier for that lockId that refreshes its revoked cache
from any later registry state rejects every credential carrying
signature `s`, for every cryptographic backend — even one that accepts
the signature as mathematically valid. -/
theorem c2_revocation_is_permanent (sc sc₁ : SmartContract) (lockId : Nat)
    (s owner : String)
    (h : sc.revokeSignature lockId s owner = (sc₁, none))
    (ops : List RegistryOp) (rsaVerify : CryptoBackend) (d : Device)
    (vc : VC) (hd : d.lockId = lockId) (hvc : vc.signature = s) :
    Device.verifyVc rsaVerify (d.fetchRevokedSignatures (sc₁.runOps ops))
      vc = false := by
  obtain ⟨l, hl, hmem⟩ := revokeSignature_ok_revoked sc sc₁ lockId s owner h
  obtain ⟨l2, hl2, hsub⟩ := runOps_revoked_mono ops sc₁ lockId l hl
  have hcache : s ∈ (d.fetchRevokedSignatures
      (sc₁.runOps ops)).revokedSignatures := by
    rw [Device.fetchRevokedSignatures, SmartContract.fetchRevokedSignatures,
      hd, hl2]
    exact mem_foldl_setAdd l2 d.revokedSignatures s (Or.inr (hsub s hmem))
  rw [Device.verifyVc, if_pos]
  rw [hvc]
  exact List.elem_iff.mpr hcache

/-- Witness for C2 at a concrete scenario: `alice` revokes signature `s`
on lock 1; the refreshed device rejects the credential even though the
backend accepts every signature. -/
theorem c2_revocation_is_permanent_witness :
    (SmartContract.mk [(1, "pk")] [(1, "alice")] [] 2).revokeSignature 1 "s"
        "alice" =
      (SmartContract.mk [(1, "pk")] [(1, "alice")] [(1, ["s"])] 2, none) ∧
    Device.verifyVc (fun _ _ _ => true)
      (Device.fetchRevokedSignatures ⟨1, "pk", []⟩
        ((SmartContract.mk [(1, "pk")] [(1, "alice")] [(1, ["s"])]
          2).runOps []))
      ⟨1, "h", "n", "s"⟩ = false := by
  constructor
  · decide
  · exact c2_revocation_is_permanent
      (SmartContract.mk [(1, "pk")] [(1, "alice")] [] 2)
      (SmartContract.mk [(1, "pk")] [(1, "alice")] [(1, ["s"])] 2) 1 "s"
      "alice" (by decide) [] (fun _ _ _ => true) ⟨1, "pk", []⟩
      ⟨1, "h", "n", "s"⟩ rfl rfl

/-- A registry lock record (lock.ts `Lock`, data part): owner, trusted
public key, active flag. -/
structure LockRecord where
  owner : String
  publicKey : String
  isActive : Bool
deriving DecidableEq, Repr

/-- The registry variant that stores whole lock records
(smart-contract.ts, lock-record variant). -/
structure SmartContractV1 where
  locks : List (Nat × LockRecord)
  lockCounter : Nat
deriving DecidableEq, Repr

/-- `isLockActive` on the lock-record registry: false when the lockId is
unknown. -/
def SmartContractV1.isLockActive (sc : SmartContractV1) (lockId : Nat) :
    Bool :=
  match alGet sc.locks lockId with
  | none => false
  | some l => l.isActive

/-- `fetchPublicKey` on the lock-record registry: null when unknown or
inactive. -/
def SmartContractV1.fetchPublicKey (sc : SmartContractV1) (lockId : Nat) :
    Option String :=
  match alGet sc.locks lockId with
  | none => none
  | some l => if !l.isActive then none else some l.publicKey

/-- The lockId-checking verifier (device.ts `Device`): holds a lockId
and a public key; `verifyVc` refreshes the key from the registry. -/
structure DeviceV1 where
  lockId : Nat
  pubK : String
deriving DecidableEq, Repr

/-- `DeviceV1.fetchPubK`: re-read the public key from the registry;
false (device unchanged) when the registry returns null or an empty
string (both falsy in the source). -/
def DeviceV1.fetchPubK (d : DeviceV1) (sc : SmartContractV1) :
    Bool × DeviceV1 :=
  match sc.fetchPublicKey d.lockId with
  | none => (false, d)
  | some k => if k == "" then (false, d) else (true, { d with pubK := k })

/-- `DeviceV1.verifyVc` (device.ts): reject when the credential's lockId
is falsy (0) or differs from the device's; reject when the lock is
inactive; reject when the public key cannot be refreshed; otherwise
return the codec verification under the refreshed key.  The possibly
updated device is returned next to the result. -/
def DeviceV1.verifyVc (rsaVerify : CryptoBackend) (sc : SmartContractV1)
    (d : DeviceV1) (vc : VC) : Bool × DeviceV1 :=
  if vc.lockId == 0 || vc.lockId != d.lockId then (false, d)
  else if !(sc.isLockActive d.lockId) then (false, d)
  else
    match d.fetchPubK sc with
    | (false, d1) => (false, d1)
    | (true, d1) =>
        (CryptoUtils.verify rsaVerify vc.userMetaDataHash vc.signature
          d1.pubK, d1)

/-- C3 counterexample: the revocation-aware Device performs no lockId
comparison, so a verifier with id 1 accepts a credential whose lockId is
2 when the signature is canonical and the cryptographic backend accepts
it for the verifier's public key — the claim requires false here. -/
theorem c3_cross_lock_counterexample :
    (2 : Nat) ≠ 1 ∧
      Device.verifyVc (fun _ _ _ => true) ⟨1, "pk", []⟩
        ⟨2, "QQ==", "n", "QQ=="⟩ = true := by
  constructor
  · decide
  · decide

/-- C3 as amended: cross-lock rejection holds for the lockId-checking
Device variant of device.ts: its `verifyVc` returns false whenever the
credential's lockId differs from the device's, in every registry state
and for every cryptographic backend; the revocation-aware Device variant
omits the check (see the counterexample). -/
theorem c3_cross_lock_rejection_v1 (rsaVerify : CryptoBackend)
    (sc : SmartContractV1) (d : DeviceV1) (vc : VC)
    (h : vc.lockId ≠ d.lockId) :
    (DeviceV1.verifyVc rsaVerify sc d vc).1 = false := by
  have hne : (vc.lockId != d.lockId) = true := by
    simpa using h
  rw [DeviceV1.verifyVc, if_pos (by rw [hne]; simp)]

/-- Witness for the amended C3 at a concrete input: a device with id 1
rejects a credential for lock 2 even with an all-accepting backend and
an active registered lock. -/
theorem c3_cross_lock_rejection_v1_witness :
    (2 : Nat) ≠ 1 ∧
      (DeviceV1.verifyVc (fun _ _ _ => true)
        ⟨[(1, ⟨"alice", "pk", true⟩)], 2⟩ ⟨1, "pk"⟩
        ⟨2, "QQ==", "n", "QQ=="⟩).1 = false :=
  ⟨by decide,
    c3_cross_lock_rejection_v1 (fun _ _ _ => true)
      ⟨[(1, ⟨"alice", "pk", true⟩)], 2⟩ ⟨1, "pk"⟩ ⟨2, "QQ==", "n", "QQ=="⟩
      (by decide)⟩

/-- An authority-held lock with its private key (lock.ts `MyLock`). -/
structure MyLock where
  lockId : Nat
  privateKey : String
  nickname : String
deriving DecidableEq, Repr

/-- The authority (lock-owner.ts `LockOwner`): its locks, its locally
issued credentials and its address. -/
structure LockOwner where
  myLocks : List MyLock
  listOfIssuedVcs : List VC
  address : String
deriving DecidableEq, Repr

/-- Errors thrown by the authority: its own two `NotFound` throws, or a
propagated registry error. -/
inductive OwnerError where
  | lockNotFound (lockId : Nat)
  | vcNotFound (signature : String)
  | contractError (e : ContractError)
deriving DecidableEq, Repr

/-- Model of `find` followed by `filter((v) => v !== vc)`: each list
element is a distinct object in the source, so exactly the first
credential with the given signature is removed. -/
def removeFirstBySignature : List VC → String → List VC
  | [], _ => []
  | v :: rest, sig =>
      if v.signature == sig then rest else v :: removeFirstBySignature rest sig

/-- `LockOwner.revokeAccessWithVc` (lock-owner.ts): throw `NotFound` when
the lockId is not among the authority's own locks or no issued credential
carries the signature; otherwise remove the credential from the local
issued list FIRST and then call the registry's `revokeSignature`.  A
registry error propagates, but the local removal has already happened
and is not rolled back. -/
def LockOwner.revokeAccessWithVc (o : LockOwner) (sc : SmartContract)
    (lockId : Nat) (sig : String) :
    LockOwner × SmartContract × Option OwnerError :=
  if (o.myLocks.find? (fun l => l.lockId == lockId)).isNone then
    (o, sc, some (OwnerError.lockNotFound lockId))
  else if (o.listOfIssuedVcs.find? (fun v => v.signature == sig)).isNone then
    (o, sc, some (OwnerError.vcNotFound sig))
  else
    let o1 := { o with
      listOfIssuedVcs := removeFirstBySignature o.listOfIssuedVcs sig }
    match sc.revokeSignature lockId sig o.address with
    | (sc1, none) => (o1, sc1, none)
    | (sc1, some e) => (o1, sc1, some (OwnerError.contractError e))

/-- A list with exactly one match has a first match. -/
theorem find?_isSome_of_filter_length_one (l : List VC) (sig : String)
    (h : (l.filter (fun v => v.signature == sig)).length = 1) :
    (l.find? (fun v => v.signature == sig)).isSome = true := by
  apply List.find?_isSome.mpr
  rcases hf : l.filter (fun v => v.signature == sig) with _ | ⟨x, xs⟩
  · rw [hf] at h; cases h
  · have hx : x ∈ l.filter (fun v => v.signature == sig) := by
      rw [hf]; exact List.mem_cons_self x xs
    have hmem := List.mem_filter.mp hx
    exact ⟨x, hmem.1, hmem.2⟩

/-- After removing the first credential with the signature from a list
that contained exactly one, none is left. -/
theorem removeFirst_find?_none (l : List VC) (sig : String)
    (h : (l.filter (fun v => v.signature == sig)).length = 1) :
    (removeFirstBySignature l sig).find?
      (fun v => v.signature == sig) = none := by
  induction l with
  | nil => rfl
  | cons v rest ih =>
      by_cases hv : (v.signature == sig) = true
      · rw [removeFirstBySignature, if_pos hv]
        rw [List.filter_cons, if_pos hv] at h
        have hz : (rest.filter (fun v => v.signature == sig)).length = 0 := by
          simpa using Nat.succ_injective h
        apply List.find?_eq_none.mpr
        intro x hx hpx
        have : x ∈ rest.filter (fun v => v.signature == sig) :=
          List.mem_filter.mpr ⟨hx, hpx⟩
        rw [List.length_eq_zero.mp hz] at this
        cases this
      · have hv0 : (v.signature == sig) = false := by simpa using hv
        rw [removeFirstBySignature, if_neg (by simp [hv0])]
        rw [List.find?_cons_of_neg _ (by simp [hv0])]
        apply ih
        rw [List.filter_cons, if_neg (by simp [hv0])] at h
        exact h

/-- C5: when the authority removes a locally issued credential and the
registry call then fails with `unauthorized` (ownership was transferred
away), the local removal is not rolled back: the credential is gone
from the authority's issued list while the registry state, including
that lock's revoked set, is unchanged. -/
theorem c5_local_removal_not_rolled_back (o : LockOwner)
    (sc : SmartContract) (lockId : Nat) (sig ow : String)
    (h1 : (o.myLocks.find? (fun l => l.lockId == lockId)).isSome = true)
    (h2 : (o.listOfIssuedVcs.filter
      (fun v => v.signature == sig)).length = 1)
    (h3 : alGet sc.lockOwners lockId = some ow) (h4 : ow ≠ o.address) :
    (o.revokeAccessWithVc sc lockId sig).2.2 =
        some (OwnerError.contractError
          (ContractError.unauthorized o.address lockId)) ∧
      (o.revokeAccessWithVc sc lockId sig).1.listOfIssuedVcs.find?
        (fun v => v.signature == sig) = none ∧
      (o.revokeAccessWithVc sc lockId sig).2.1 = sc := by
  rcases hf1 : o.myLocks.find? (fun l => l.lockId == lockId) with _ | ml
  · rw [hf1] at h1; simp at h1
  rcases hf2 : o.listOfIssuedVcs.find? (fun v => v.signature == sig)
    with _ | mv
  · have hs := find?_isSome_of_filter_length_one o.listOfIssuedVcs sig h2
    rw [hf2] at hs; simp at hs
  have hrv := revokeSignature_unauthorized sc lockId sig o.address ow h3 h4
  refine ⟨?_, ?_, ?_⟩
  · simp only [LockOwner.revokeAccessWithVc, hf1, hf2, hrv]
    rfl
  · simp only [LockOwner.revokeAccessWithVc, hf1, hf2, hrv]
    simpa using removeFirst_find?_none o.listOfIssuedVcs sig h2
  · simp only [LockOwner.revokeAccessWithVc, hf1, hf2, hrv]
    rfl

/-- Witness for C5 at a concrete scenario: the registry records `alice`
as owner of lock 1 while authority `bob` still holds the lock locally;
the local credential is removed, the registry rejects and keeps its
state. -/
theorem c5_local_removal_not_rolled_back_witness :
    ((LockOwner.mk [⟨1, "priv", "door"⟩] [⟨1, "h", "n", "s"⟩]
          "bob").revokeAccessWithVc
        (SmartContract.mk [(1, "pk")] [(1, "alice")] [] 2) 1 "s").2.2 =
        some (OwnerError.contractError
          (ContractError.unauthorized "bob" 1)) ∧
      ((LockOwner.mk [⟨1, "priv", "door"⟩] [⟨1, "h", "n", "s"⟩]
          "bob").revokeAccessWithVc
        (SmartContract.mk [(1, "pk")] [(1, "alice")] [] 2) 1
          "s").1.listOfIssuedVcs.find? (fun v => v.signature == "s") =
        none ∧
      ((LockOwner.mk [⟨1, "priv", "door"⟩] [⟨1, "h", "n", "s"⟩]
          "bob").revokeAccessWithVc
        (SmartContract.mk [(1, "pk")] [(1, "alice")] [] 2) 1 "s").2.1 =
        SmartContract.mk [(1, "pk")] [(1, "alice")] [] 2 :=
  c5_local_removal_not_rolled_back
    (LockOwner.mk [⟨1, "priv", "door"⟩] [⟨1, "h", "n", "s"⟩] "bob")
    (SmartContract.mk [(1, "pk")] [(1, "alice")] [] 2) 1 "s" "alice"
    (by decide) (by decide) (by decide) (by decide)
